import Mathlib

/-!
Verification of the TadPole-OS mission runtime (`src/server-rs`).

This file shallowly embeds the parts of the Rust source that the checked
claims are about: input validation, the model rate table and cost
computation, the mission store (`mission.rs`), the budget gate and run
finalization (`runner.rs`), the oversight gate (`runner.rs` /
`routes/oversight.rs`), the filesystem sandbox (`adapter/filesystem.rs`),
the rate limiter (`agent/rate_limiter.rs`) and the tool dispatch table
(`runner.rs`, `execute_tool`).

Conventions of the embedding:
- USD amounts (Rust `f64` holding exact decimal rate constants) are
  modelled as `Rat`.
- Rust `&str` / `String` are Lean `String`; `message.len()` (UTF-8 bytes)
  is `String.utf8ByteSize`.
- Database tables (`mission_history`, `mission_logs`) are association
  lists; the SQL `UPDATE ... SET cost_usd = cost_usd + ?` of
  `update_mission` is mapped literally.
- Async effects (provider HTTP calls, oversight await, subprocesses,
  hooks) are modelled by explicit outcome parameters or oracle functions,
  with the state transitions of the surrounding Rust code kept concrete.
-/

namespace TadPole

/-- Token usage reported by a provider (src/server-rs/src/agent/types.rs, `TokenUsage`). -/
structure TokenUsage where
  input_tokens : Nat
  output_tokens : Nat
  total_tokens : Nat
  deriving DecidableEq, Repr

/-- Mission lifecycle status (types.rs, `MissionStatus`). -/
inductive MissionStatus where
  | pending
  | active
  | completed
  | failed
  | paused
  deriving DecidableEq, Repr

/-- Persistent mission record (types.rs, `Mission`); timestamps are omitted
because no checked claim mentions them. -/
structure Mission where
  id : String
  agent_id : String
  title : String
  status : MissionStatus
  budget_usd : Rat
  cost_usd : Rat
  deriving DecidableEq, Repr

/-- Mission audit log row (types.rs, `MissionLog`); id, timestamp and metadata
are omitted because no checked claim mentions them. -/
structure MissionLog where
  mission_id : String
  agent_id : String
  source : String
  text : String
  severity : String
  deriving DecidableEq, Repr

/-- Model binding of an agent (types.rs, `ModelConfig`). -/
structure ModelConfig where
  provider : String
  model_id : String
  api_key : Option String
  base_url : Option String
  external_id : Option String
  rpm : Option Nat
  tpm : Option Nat
  deriving DecidableEq, Repr

/-- Task payload accepted by the runner (types.rs, `TaskPayload`). -/
structure TaskPayload where
  message : String
  cluster_id : Option String
  department : Option String
  provider : Option String
  model_id : Option String
  api_key : Option String
  base_url : Option String
  rpm : Option Nat
  tpm : Option Nat
  budget_usd : Option Rat
  swarm_depth : Option Nat
  swarm_lineage : Option (List String)
  external_id : Option String
  safe_mode : Option Bool
  deriving DecidableEq, Repr

/-- Helper for `strContains`: does `pat` occur as a contiguous sublist? -/
def hasSub (pat : List Char) : List Char → Bool
  | [] => pat.isEmpty
  | c :: cs => pat.isPrefixOf (c :: cs) || hasSub pat cs

/-- Boolean substring test used to state properties about error messages. -/
def strContains (s pat : String) : Bool :=
  hasSub pat.toList s.toList

/-- Boolean string prefix test (Rust `str::starts_with`). -/
def strStarts (s pat : String) : Bool :=
  pat.toList.isPrefixOf s.toList

/-- Lowercasing (Rust `str::to_lowercase`), character-wise. -/
def lowerStr (s : String) : String :=
  String.mk (s.toList.map Char.toLower)

/-- Fuelled helper for `strReplace`; the fuel is an upper bound on the scan
steps, one character consumed per step. -/
def replaceFuel (pat rep : List Char) : Nat → List Char → List Char
  | 0, l => l
  | _ + 1, [] => []
  | fuel + 1, c :: cs =>
    if pat.isPrefixOf (c :: cs) ∧ pat ≠ [] then
      rep ++ replaceFuel pat rep fuel ((c :: cs).drop pat.length)
    else c :: replaceFuel pat rep fuel cs

/-- Substring replacement (Rust `str::replace`): every non-overlapping
occurrence of `pat` is replaced by `rep`, scanning left to right. -/
def strReplace (s pat rep : String) : String :=
  String.mk (replaceFuel pat.toList rep.toList s.toList.length s.toList)

/-- Whitespace trimming (Rust `str::trim`): drops leading and trailing
whitespace characters. -/
def rustTrim (s : String) : String :=
  String.mk ((((s.toList.dropWhile Char.isWhitespace).reverse).dropWhile Char.isWhitespace).reverse)

/-- Tests whether an `Except String` computation failed with a message
containing `pat`. -/
def errorContains (r : Except String α) (pat : String) : Bool :=
  match r with
  | .error e => strContains e pat
  | .ok _ => false

/-- Tests whether an `Except` computation succeeded. -/
def exceptOk (r : Except ε α) : Bool :=
  match r with
  | .ok _ => true
  | .error _ => false

-- ─────────────────────────────────────────────────────────
--  Model rate table (src/server-rs/src/agent/rates.rs)
-- ─────────────────────────────────────────────────────────

/-- Financial rate of a model, USD per 1000 tokens (rates.rs, `ModelRate`). -/
structure ModelRate where
  input_cost_per_1k : Rat
  output_cost_per_1k : Rat
  deriving DecidableEq, Repr

/-- Static registry of model rates (rates.rs, `MODEL_RATES`): the `HashMap`
is embedded as its lookup function. -/
def MODEL_RATES (id : String) : Option ModelRate :=
  if id = "gpt-4o" then some ⟨0.005, 0.015⟩
  else if id = "gpt-4o-mini" then some ⟨0.00015, 0.0006⟩
  else if id = "claude-3-5-sonnet" then some ⟨0.003, 0.015⟩
  else if id = "claude-3-opus" then some ⟨0.015, 0.075⟩
  else if id = "gemini-1.5-pro" then some ⟨0.00125, 0.00375⟩
  else if id = "gemini-1.5-flash" then some ⟨0.000075, 0.0003⟩
  else if id = "llama-3.3-70b-versatile" then some ⟨0.00059, 0.00079⟩
  else if id = "mixtral-8x7b-32768" then some ⟨0.00027, 0.00027⟩
  else none

/-- Cost in USD of a token usage for a model (rates.rs, `calculate_cost`).
Unknown models use the default fallback rate. -/
def calculate_cost (model_id : String) (input_tokens output_tokens : Nat) : Rat :=
  let rate := (MODEL_RATES model_id).getD ⟨0.002, 0.006⟩
  let input_cost := ((input_tokens : Rat) / 1000) * rate.input_cost_per_1k
  let output_cost := ((output_tokens : Rat) / 1000) * rate.output_cost_per_1k
  input_cost + output_cost

-- ─────────────────────────────────────────────────────────
--  Input validation (runner.rs, `validate_input`)
-- ─────────────────────────────────────────────────────────

/-- Maximum task message size in bytes (runner.rs, `MAX_TASK_LENGTH`). -/
def MAX_TASK_LENGTH : Nat := 32768

/-- Maximum swarm recursion depth (runner.rs, `MAX_SWARM_DEPTH`). -/
def MAX_SWARM_DEPTH : Nat := 5

/-- Input validation performed before a run starts (runner.rs,
`validate_input`): message size, circular recursion, depth limit, in this
order. -/
def validate_input (agent_id : String) (payload : TaskPayload) : Except String Unit :=
  if payload.message.utf8ByteSize > MAX_TASK_LENGTH then
    .error ("❌ Task message too long (" ++ toString payload.message.utf8ByteSize
      ++ " bytes, max " ++ toString MAX_TASK_LENGTH ++ ")")
  else
    let lineage := payload.swarm_lineage.getD []
    if lineage.any (fun id => id = agent_id) then
      .error ("🐝 CIRCULAR RECURSION DETECTED: Agent \x27" ++ agent_id
        ++ "\x27 has already participated in this mission chain (Lineage: "
        ++ String.intercalate " -> " lineage ++ " -> " ++ agent_id
        ++ "). Recruitment aborted.")
    else
      let depth := payload.swarm_depth.getD 0
      if depth ≥ MAX_SWARM_DEPTH then
        .error ("🐝 Swarm depth limit exceeded (current depth: " ++ toString depth
          ++ ")! To prevent infinite recursions, this agent cannot spawn more sub-agents.")
      else
        .ok ()

-- ─────────────────────────────────────────────────────────
--  Engine state (state.rs) and the mission store (mission.rs)
-- ─────────────────────────────────────────────────────────

/-- Registered agent (types.rs, `EngineAgent`); fields not used by any
checked claim (theme color, metadata, alternate model slots) are omitted. -/
structure Agent where
  id : String
  name : String
  role : String
  department : String
  description : String
  model_id : Option String
  tokens_used : Nat
  status : String
  budget_usd : Rat
  cost_usd : Rat
  skills : List String
  workflows : List String
  token_usage : TokenUsage
  model : ModelConfig
  deriving DecidableEq, Repr

/-- Model registry row (types.rs, `ModelEntry`). -/
structure ModelEntry where
  id : String
  name : String
  provider_id : String
  rpm : Option Nat
  tpm : Option Nat
  deriving DecidableEq, Repr

/-- Provider registry row (types.rs, `ProviderConfig`). -/
structure ProviderConfig where
  id : String
  protocol : String
  api_key : Option String
  base_url : Option String
  external_id : Option String
  deriving DecidableEq, Repr

/-- Pending oversight tool call (types.rs, `ToolCall`); the JSON params and
the timestamp are carried opaquely as strings. -/
structure ToolCall where
  id : String
  mission_id : Option String
  agent_id : String
  skill : String
  params : String
  department : String
  description : String
  deriving DecidableEq, Repr

/-- Oversight queue entry (types.rs, `OversightEntry`); the capability
proposal variant is carried opaquely since no checked claim inspects it. -/
structure OversightEntry where
  id : String
  mission_id : Option String
  tool_call : Option ToolCall
  capability_proposal : Option String
  status : String
  deriving DecidableEq, Repr

/-- Ledger record written by `decide_oversight` (routes/oversight.rs): the
JSON object with id, decision, decidedBy and the tool-call summary. -/
structure LedgerRecord where
  id : String
  decision : String
  decidedBy : String
  tool_call : Option ToolCall
  deriving DecidableEq, Repr

/-- Shared application state (state.rs, `AppState`): the concurrent maps are
embedded as lists (newest first for the two oversight maps), the SQLite
tables `mission_history` / `mission_logs` as lists of rows. -/
structure EngineState where
  agents : List Agent
  models : List ModelEntry
  providers : List ProviderConfig
  missions : List Mission
  logs : List MissionLog
  oversight_queue : List OversightEntry
  oversight_resolvers : List String
  oversight_ledger : List LedgerRecord
  deriving DecidableEq, Repr

/-- Mission creation (mission.rs, `create_mission`): a fresh pending row with
`cost_usd = 0`; fails when the agent id is not in the `agents` table. The
uuid is environment-supplied. -/
def create_mission (agents : List Agent) (missions : List Mission)
    (agent_id title : String) (budget_usd : Rat) (mission_id : String) :
    Except String (Mission × List Mission) :=
  let mission : Mission := ⟨mission_id, agent_id, title, .pending, budget_usd, 0⟩
  if agents.any (fun a => a.id = agent_id) then
    .ok (mission, missions ++ [mission])
  else
    .error ("Agent ID \x27" ++ agent_id ++ "\x27 not found in database")

/-- Mission update (mission.rs, `update_mission`): the SQL statement
`SET status = ?, cost_usd = cost_usd + ?` — the cost argument is added to
the stored cost, never assigned. -/
def update_mission (missions : List Mission) (mission_id : String)
    (status : MissionStatus) (cost_usd : Rat) : List Mission :=
  missions.map fun m =>
    if m.id = mission_id then
      { m with status := status, cost_usd := m.cost_usd + cost_usd }
    else m

/-- Mission step logging (mission.rs, `log_step`): appends one row to
`mission_logs`. -/
def log_step (logs : List MissionLog)
    (mission_id agent_id source text severity : String) : List MissionLog :=
  logs ++ [⟨mission_id, agent_id, source, text, severity⟩]

/-- Cost of a mission in the store, when present (first row wins, as for a
primary-key lookup). -/
def missionCost (missions : List Mission) (mission_id : String) : Option Rat :=
  (missions.find? (fun m => m.id = mission_id)).map (fun m => m.cost_usd)

/-- Status of a mission in the store, when present. -/
def missionStatus (missions : List Mission) (mission_id : String) : Option MissionStatus :=
  (missions.find? (fun m => m.id = mission_id)).map (fun m => m.status)

/-- Lookup of a mission row (mission.rs, `get_mission_by_id`). -/
def get_mission_by_id (missions : List Mission) (mission_id : String) : Option Mission :=
  missions.find? (fun m => m.id = mission_id)

-- ─────────────────────────────────────────────────────────
--  Oversight gate (runner.rs `submit_oversight`, routes/oversight.rs)
-- ─────────────────────────────────────────────────────────

/-- Registration phase of `submit_oversight` (runner.rs): stamps the mission
id onto the tool call, creates the pending entry, inserts it into the queue
and registers a fresh oneshot resolver under the entry id. The map inserts
replace any entry under the same key. -/
def submit_oversight_register (st : EngineState) (entry_id : String)
    (tool_call : ToolCall) (mission_id : Option String) : EngineState × OversightEntry :=
  let tool_call := { tool_call with mission_id := mission_id }
  let entry : OversightEntry := ⟨entry_id, mission_id, some tool_call, none, "pending"⟩
  ({ st with
      oversight_queue := entry :: st.oversight_queue.filter (fun e => e.id ≠ entry_id),
      oversight_resolvers := entry_id :: st.oversight_resolvers.filter (fun r => r ≠ entry_id) },
   entry)

/-- Await phase of `submit_oversight` (runner.rs): the call returns the
boolean delivered on its oneshot channel, or `false` when the sender is
dropped without a decision. -/
def submit_oversight_result (delivered : Option Bool) : Bool :=
  delivered.getD false

/-- Transport response of the decision endpoint. -/
inductive DecideOutcome where
  | notFound
  | ok (delivered : Option Bool)
  deriving DecidableEq, Repr

/-- Decision operation (routes/oversight.rs, `decide_oversight`): computes
`approved` from the decision string, removes the entry from the pending
queue (404 when absent), resolves the registered oneshot sender with the
boolean, and prepends a record to the ledger truncated to 200 entries. -/
def decide_oversight (st : EngineState) (entry_id decision : String) :
    EngineState × DecideOutcome :=
  let approved := decision == "approved"
  match st.oversight_queue.find? (fun e => e.id = entry_id) with
  | none => (st, .notFound)
  | some removed_entry =>
    let st := { st with oversight_queue := st.oversight_queue.filter (fun e => e.id ≠ entry_id) }
    let resolved :=
      if st.oversight_resolvers.contains entry_id then
        some ({ st with oversight_resolvers := st.oversight_resolvers.filter (fun r => r ≠ entry_id) },
              approved)
      else none
    let st := (resolved.map (fun p => p.1)).getD st
    let delivered := resolved.map (fun p => p.2)
    let record : LedgerRecord := ⟨entry_id, decision, "user", removed_entry.tool_call⟩
    let st := { st with oversight_ledger := (record :: st.oversight_ledger).take 200 }
    (st, .ok delivered)

-- ─────────────────────────────────────────────────────────
--  Run context resolution (runner.rs, `resolve_agent_context`)
-- ─────────────────────────────────────────────────────────

/-- Context bag resolved during the setup phase of a run (runner.rs,
`RunContext`). -/
structure RunContext where
  agent_id : String
  name : String
  role : String
  department : String
  description : String
  model_config : ModelConfig
  skills : List String
  workflows : List String
  mission_id : String
  depth : Nat
  lineage : List String
  provider_name : String
  workspace_root : String
  safe_mode : Bool
  deriving DecidableEq, Repr

/-- Skills stripped in safe mode (runner.rs, `blacklisted_skills`). -/
def blacklisted_skills : List String :=
  ["issue_alpha_directive", "spawn_subagent", "execute_bash", "write_file",
   "delete_file", "append_file", "deploy"]

/-- Resolution of the full agent context (runner.rs,
`resolve_agent_context`): registry lookup exact-first then
case-insensitive by name, payload overrides, workspace sanitization and
safe-mode redaction. -/
def resolve_agent_context (st : EngineState) (agent_id : String) (payload : TaskPayload)
    (mission_id : String) (depth : Nat) (lineage : List String) : Except String RunContext :=
  match st.agents.find? (fun a => a.id = agent_id) with
  | none => .error ("Agent " ++ agent_id ++ " not found")
  | some a =>
    let target_model_id := (payload.model_id.orElse (fun _ => a.model_id)).getD a.model.model_id
    let central : Except String ModelConfig :=
      match st.models.find? (fun m => m.id = target_model_id) with
      | some model_entry =>
        match st.providers.find? (fun p => p.id = model_entry.provider_id) with
        | none => .error ("Provider " ++ model_entry.provider_id ++ " not found for model "
            ++ target_model_id)
        | some pc => .ok ⟨pc.protocol, model_entry.id, pc.api_key, pc.base_url,
            pc.external_id, model_entry.rpm, model_entry.tpm⟩
      | none =>
        match st.models.find? (fun m => lowerStr m.name = lowerStr target_model_id) with
        | some m =>
          match st.providers.find? (fun p => p.id = m.provider_id) with
          | none => .error ("Provider " ++ m.provider_id ++ " not found for model " ++ m.name)
          | some pc => .ok ⟨pc.protocol, m.id, pc.api_key, pc.base_url,
              pc.external_id, m.rpm, m.tpm⟩
        | none => .ok { a.model with model_id := target_model_id }
    match central with
    | .error e => .error e
    | .ok cfg =>
      let cfg := match payload.provider with | some p => { cfg with provider := p } | none => cfg
      let cfg := match payload.api_key with | some k => { cfg with api_key := some k } | none => cfg
      let cfg := match payload.base_url with | some u => { cfg with base_url := some u } | none => cfg
      let cfg := match payload.external_id with | some x => { cfg with external_id := some x } | none => cfg
      let cfg := match payload.model_id with | some m => { cfg with model_id := m } | none => cfg
      let provider_name := lowerStr cfg.provider
      let workspace_id := payload.cluster_id.getD "executive-core"
      let sanitized_id := strReplace (strReplace (strReplace workspace_id ".." "") "/" "") "\\" ""
      let workspace_root := "workspaces/" ++ sanitized_id
      let safe_mode := payload.safe_mode.getD false
      let skills := if safe_mode then a.skills.filter (fun s => !(blacklisted_skills.contains s))
                    else a.skills
      let workflows := if safe_mode then [] else a.workflows
      .ok ⟨agent_id, a.name, a.role, a.department, a.description, cfg, skills, workflows,
           mission_id, depth, lineage, provider_name, workspace_root, safe_mode⟩

-- ─────────────────────────────────────────────────────────
--  Budget gate, completion handler, finalization (runner.rs)
-- ─────────────────────────────────────────────────────────

/-- Outcome of the budget gate: updated mission/log tables and the optional
early-exit message. -/
structure BudgetCheck where
  missions : List Mission
  logs : List MissionLog
  early : Option String
  deriving DecidableEq, Repr

/-- Budget enforcement (runner.rs, `check_budget`): reads the stored mission
row; when `cost_usd >= budget_usd` it pauses the mission, logs a warning
step sourced "Finance Analyst", and produces the early-exit message with the
"(PAUSED: Budget Exceeded)" prefix. The Rust `_step_cost` argument is
unused by the check, and the interpolated dollar amounts of the log text are
elided here. -/
def check_budget (missions : List Mission) (logs : List MissionLog)
    (ctx : RunContext) (_step_cost : Rat) (output_text : String) : BudgetCheck :=
  match get_mission_by_id missions ctx.mission_id with
  | some mission =>
    if mission.budget_usd ≤ mission.cost_usd then
      { missions := update_mission missions ctx.mission_id .paused 0,
        logs := log_step logs ctx.mission_id ctx.agent_id "Finance Analyst"
          "Emergency Pause: Neural cost has exceeded allocated budget." "warning",
        early := some ("(PAUSED: Budget Exceeded) " ++ output_text) }
    else
      { missions, logs, early := none }
  | none => { missions, logs, early := none }

/-- Completion handler (runner.rs, `handle_complete_mission`): the oversight
decision delivered to the awaiting `submit_oversight` call is the `approved`
argument. Approval marks the mission completed; rejection only prepends the
rejection marker to the output text. -/
def handle_complete_mission (missions : List Mission) (ctx : RunContext)
    (report : String) (approved : Bool) (output_text : String) :
    List Mission × String :=
  if approved then
    (update_mission missions ctx.mission_id .completed 0,
     "(MISSION COMPLETED: " ++ report ++ ") " ++ output_text)
  else
    (missions, "(Mission completion REJECTED) " ++ output_text)

/-- Finalization (runner.rs, `finalize_run`): persists agent stats (usage,
turn cost, idle status), computes the delivery string (trim, empty
fallback), recomputes the cumulative turn cost, marks the mission completed
with that cost and logs a success step. -/
def finalize_run (st : EngineState) (ctx : RunContext) (output_text : String)
    (usage : Option TokenUsage) : EngineState × String :=
  let turn_cost := calculate_cost ctx.model_config.model_id
    ((usage.map (fun u => u.input_tokens)).getD 0)
    ((usage.map (fun u => u.output_tokens)).getD 0)
  let agents := st.agents.map fun a =>
    if a.id = ctx.agent_id then
      let a := match usage with
        | some u => { a with token_usage := u, tokens_used := a.tokens_used + u.total_tokens }
        | none => a
      { a with cost_usd := a.cost_usd + turn_cost, status := "idle" }
    else a
  let final_delivery := rustTrim output_text
  let final_delivery :=
    if final_delivery = "" then
      "(Agent completed its actions without a final conversational response.)"
    else final_delivery
  let final_cumulative_cost := calculate_cost ctx.model_config.model_id
    ((usage.map (fun u => u.input_tokens)).getD 0)
    ((usage.map (fun u => u.output_tokens)).getD 0)
  let missions := update_mission st.missions ctx.mission_id .completed final_cumulative_cost
  let logs := log_step st.logs ctx.mission_id ctx.agent_id "Agent" output_text "success"
  ({ st with agents := agents, missions := missions, logs := logs }, final_delivery)

-- ─────────────────────────────────────────────────────────
--  The run protocol (runner.rs, `run`)
-- ─────────────────────────────────────────────────────────

/-- Function call returned by a provider (types.rs, `GeminiFunctionCall`);
the JSON args are carried opaquely. -/
structure FunctionCall where
  name : String
  args : String
  deriving DecidableEq, Repr

/-- Outcome of the primary provider generation, supplied as an environment
parameter (the HTTP call itself is outside the model). -/
inductive ProviderOutcome where
  | ok (text : String) (calls : List FunctionCall) (usage : Option TokenUsage)
  | err (e : String)
  deriving DecidableEq, Repr

/-- Result of one concurrently dispatched tool handler, in completion order
(runner.rs, the `FuturesUnordered` loop of `run`): the handler result, the
local text residue and local usage. State effects of the handlers themselves
are modelled at handler level (`handle_complete_mission`, `execute_tool`). -/
structure ToolOutcome where
  result : Except String (Option String)
  local_text : String
  local_usage : Option TokenUsage
  deriving Repr

/-- Usage accumulation (runner.rs, `accumulate_usage`). -/
def accumulate_usage (total loc : Option TokenUsage) : Option TokenUsage :=
  match loc with
  | none => total
  | some l =>
    match total with
    | some t => some ⟨t.input_tokens + l.input_tokens, t.output_tokens + l.output_tokens,
        t.total_tokens + l.total_tokens⟩
    | none => some l

/-- Collection loop over the dispatched tool handlers (runner.rs, `run`
step 4): a handler error aborts the run, an early return is returned
immediately, otherwise text and usage accumulate. -/
def tool_loop : List ToolOutcome → String → Option TokenUsage →
    Except String (Option String × String × Option TokenUsage)
  | [], text, usage => .ok (none, text, usage)
  | o :: rest, text, usage =>
    match o.result with
    | .error e => .error e
    | .ok (some early) => .ok (some early, text, usage)
    | .ok none => tool_loop rest (text ++ o.local_text) (accumulate_usage usage o.local_usage)

/-- Mission title construction (runner.rs, `run` step 0.1): the first 50
characters of the user message plus an ellipsis. -/
def mission_title_of (message : String) : String :=
  String.mk (message.toList.take 50) ++ "..."

/-- The core execution loop for a mission (runner.rs, `run`): validation,
mission creation and activation, context resolution, primary generation
(outcome supplied as a parameter), budget gate, tool dispatch (outcomes
supplied in completion order) and finalization. The fresh mission uuid is
environment-supplied. -/
def run (st : EngineState) (agent_id : String) (payload : TaskPayload) (mission_id : String)
    (provider : ProviderOutcome) (tool_outcomes : List ToolOutcome) :
    EngineState × Except String String :=
  match validate_input agent_id payload with
  | .error e => (st, .error e)
  | .ok _ =>
  let depth := payload.swarm_depth.getD 0
  let lineage := payload.swarm_lineage.getD []
  let mission_title := mission_title_of payload.message
  let agent_budget := ((st.agents.find? (fun a => a.id = agent_id)).map (fun a => a.budget_usd)).getD 0
  let mission_budget := payload.budget_usd.getD (if 0 < agent_budget then agent_budget else 1)
  match create_mission st.agents st.missions agent_id mission_title mission_budget mission_id with
  | .error e => (st, .error e)
  | .ok (_, missions) =>
  let st := { st with missions := update_mission missions mission_id .active 0 }
  let st := { st with logs := log_step st.logs mission_id agent_id "User" payload.message "info" }
  match resolve_agent_context st agent_id payload mission_id depth lineage with
  | .error e => (st, .error e)
  | .ok ctx =>
  let thinking_log := log_step st.logs mission_id agent_id "System" ("Agent " ++ ctx.name ++ " is thinking...") "info"
  let st := { st with logs := thinking_log }
  match provider with
  | .err e =>
    let idle_agents := st.agents.map (fun a => if a.id = ctx.agent_id then { a with status := "idle" } else a)
    let st := { st with agents := idle_agents }
    let st := { st with missions := update_mission st.missions ctx.mission_id .failed 0 }
    let error_log := log_step st.logs ctx.mission_id ctx.agent_id "System" ("❌ Error: " ++ e) "error"
    let st := { st with logs := error_log }
    (st, .error e)
  | .ok output_text calls usage =>
    let step_cost := calculate_cost ctx.model_config.model_id
      ((usage.map (fun u => u.input_tokens)).getD 0)
      ((usage.map (fun u => u.output_tokens)).getD 0)
    let bc := check_budget st.missions st.logs ctx step_cost output_text
    let st := { st with missions := bc.missions, logs := bc.logs }
    match bc.early with
    | some budget_msg => (st, .ok budget_msg)
    | none =>
      let looped := if calls.isEmpty then .ok (none, output_text, usage)
                    else tool_loop tool_outcomes output_text usage
      match looped with
      | .error e => (st, .error e)
      | .ok (some early, _, _) => (st, .ok early)
      | .ok (none, final_text, final_usage) =>
        let (st, delivery) := finalize_run st ctx final_text final_usage
        (st, .ok delivery)

-- ─────────────────────────────────────────────────────────
--  Mission-store operations of the runner (for the cost invariant)
-- ─────────────────────────────────────────────────────────

/-- Every mission-store write the runtime performs, one constructor per call
site: `create` (`create_mission`, runner.rs:60), `setStatus`
(`update_mission` with cost argument 0.0 — activation runner.rs:69, failure
runner.rs:609, budget pause runner.rs:635, approved completion
runner.rs:1117), and `finalizeCost` (`update_mission` with the turn cost,
runner.rs:1420). -/
inductive RunnerMissionOp where
  | create (mission_id agent_id title : String) (budget_usd : Rat)
  | setStatus (mission_id : String) (status : MissionStatus)
  | finalizeCost (mission_id model_id : String) (input_tokens output_tokens : Nat)
  deriving DecidableEq, Repr

/-- Interpretation of a runner mission-store operation on the
`mission_history` table. -/
def applyMissionOp (missions : List Mission) : RunnerMissionOp → List Mission
  | .create mission_id agent_id title budget =>
      missions ++ [⟨mission_id, agent_id, title, .pending, budget, 0⟩]
  | .setStatus mission_id status => update_mission missions mission_id status 0
  | .finalizeCost mission_id model_id i o =>
      update_mission missions mission_id .completed (calculate_cost model_id i o)

-- ─────────────────────────────────────────────────────────
--  Filesystem sandbox (src/server-rs/src/adapter/filesystem.rs)
-- ─────────────────────────────────────────────────────────

/-- Path component in the sense of Rust `std::path::Component`. -/
inductive PathComponent where
  | normal (s : String)
  | parentDir
  | rootDir
  | curDir
  deriving DecidableEq, Repr

/-- Candidate-building loop of `get_safe_path` (filesystem.rs): normal
components are pushed onto the root, a parent-directory component aborts
with the SECURITY FAULT error, root/prefix/current components are ignored.
This phase performs no filesystem access. -/
def build_candidate (acc : List String) : List PathComponent → Except String (List String)
  | [] => .ok acc
  | .normal c :: rest => build_candidate (acc ++ [c]) rest
  | .parentDir :: _ =>
      .error "🚫 SECURITY FAULT: Illegal path traversal attempt detected. Access denied."
  | .rootDir :: rest => build_candidate acc rest
  | .curDir :: rest => build_candidate acc rest

/-- Oracle for the real filesystem operations the adapter performs. Every
call to one of these is recorded in the access trace of the adapter
functions. -/
structure FsOracle where
  canonicalize_root : List String → Except String (List String)
  canonicalize_candidate : List String → List String
  fileExists : List String → Bool
  isFile : List String → Bool
  isDir : List String → Bool
  readImpl : List String → Except String String
  writeImpl : List String → String → Except String Unit
  listImpl : List String → Except String (List String)
  removeImpl : List String → Except String Unit

/-- Sandbox verification (filesystem.rs, `get_safe_path`): build the
candidate (rejecting `..` up-front), then canonicalize root and candidate
and require the candidate to stay under the root. Returns the result and
the trace of filesystem accesses performed. -/
def get_safe_path (fs : FsOracle) (root_path : List String) (requested : List PathComponent) :
    Except String (List String) × List String :=
  match build_candidate root_path requested with
  | .error e => (.error e, [])
  | .ok candidate =>
    match fs.canonicalize_root root_path with
    | .error e => (.error e, ["canonicalize root"])
    | .ok canonical_root =>
      let canonical_candidate := fs.canonicalize_candidate candidate
      if canonical_root.isPrefixOf canonical_candidate then
        (.ok candidate, ["canonicalize root", "canonicalize candidate"])
      else
        (.error "🚫 SECURITY FAULT: Attempted to access a path outside the designated workspace.",
         ["canonicalize root", "canonicalize candidate"])

/-- Workspace read (filesystem.rs, `read_file`). -/
def read_file (fs : FsOracle) (root : List String) (req : List PathComponent) :
    Except String String × List String :=
  match get_safe_path fs root req with
  | (.error e, tr) => (.error e, tr)
  | (.ok path, tr) =>
    match fs.readImpl path with
    | .error e => (.error e, tr ++ ["read"])
    | .ok content => (.ok content, tr ++ ["read"])

/-- Workspace write (filesystem.rs, `write_file`): creates parent
directories, then writes. -/
def write_file (fs : FsOracle) (root : List String) (req : List PathComponent)
    (content : String) : Except String Unit × List String :=
  match get_safe_path fs root req with
  | (.error e, tr) => (.error e, tr)
  | (.ok path, tr) =>
    match fs.writeImpl path content with
    | .error e => (.error e, tr ++ ["create parent dirs", "write"])
    | .ok _ => (.ok (), tr ++ ["create parent dirs", "write"])

/-- Workspace directory listing (filesystem.rs, `list_files`): empty result
for a missing directory, otherwise the sorted entries. -/
def list_files (fs : FsOracle) (root : List String) (req : List PathComponent) :
    Except String (List String) × List String :=
  match get_safe_path fs root req with
  | (.error e, tr) => (.error e, tr)
  | (.ok path, tr) =>
    if fs.fileExists path then
      match fs.listImpl path with
      | .error e => (.error e, tr ++ ["stat", "read dir"])
      | .ok files => (.ok (files.mergeSort (fun a b => decide (a ≤ b))), tr ++ ["stat", "read dir"])
    else
      (.ok [], tr ++ ["stat"])

/-- Workspace deletion (filesystem.rs, `delete_file`): removes a file or a
directory tree; silently succeeds when neither exists. -/
def delete_file (fs : FsOracle) (root : List String) (req : List PathComponent) :
    Except String Unit × List String :=
  match get_safe_path fs root req with
  | (.error e, tr) => (.error e, tr)
  | (.ok path, tr) =>
    if fs.isFile path then
      match fs.removeImpl path with
      | .error e => (.error e, tr ++ ["stat", "remove file"])
      | .ok _ => (.ok (), tr ++ ["stat", "remove file"])
    else if fs.isDir path then
      match fs.removeImpl path with
      | .error e => (.error e, tr ++ ["stat", "remove dir"])
      | .ok _ => (.ok (), tr ++ ["stat", "remove dir"])
    else (.ok (), tr ++ ["stat"])

-- ─────────────────────────────────────────────────────────
--  Rate limiter (src/server-rs/src/agent/rate_limiter.rs)
-- ─────────────────────────────────────────────────────────

/-- Rate limiter state (rate_limiter.rs, `RateLimiter`): the semaphore is
modelled by its available permit count, time by a second counter. -/
structure RateLimiter where
  rpm_limit : Option Nat
  tpm_limit : Option Nat
  tokens_used : Nat
  window_start : Nat
  rpm_permits : Nat
  deriving DecidableEq, Repr

/-- Constructor (rate_limiter.rs, `new`): the semaphore is seeded with `rpm`
permits when the limit is set. -/
def RateLimiter.make (rpm tpm : Option Nat) (now : Nat) : RateLimiter :=
  { rpm_limit := rpm, tpm_limit := tpm, tokens_used := 0, window_start := now,
    rpm_permits := rpm.getD 0 }

/-- Activity test (rate_limiter.rs, `is_active`). -/
def RateLimiter.isActive (l : RateLimiter) : Bool :=
  l.rpm_limit.isSome || l.tpm_limit.isSome

/-- Result of an `acquire` call: the limiter state, the clock after the
call, the sleeps performed, and whether the call completed (false when the
model ran out of fuel in the TPM loop or would block on the semaphore). -/
structure AcquireResult where
  limiter : RateLimiter
  now : Nat
  sleeps : List Nat
  completed : Bool
  deriving DecidableEq, Repr

/-- TPM enforcement loop of `acquire` (rate_limiter.rs): window reset after
60 s, admission when the estimated tokens fit, otherwise sleep until the
window resets and retry. Fuel bounds the retries (the Rust loop can spin
forever when the estimate alone exceeds the limit). -/
def tpm_wait_loop (tpm est : Nat) (fuel : Nat) (l : RateLimiter) (now : Nat)
    (sleeps : List Nat) : RateLimiter × Nat × List Nat × Bool :=
  match fuel with
  | 0 => (l, now, sleeps, false)
  | fuel + 1 =>
    let elapsed := now - l.window_start
    let l := if 60 ≤ elapsed then { l with tokens_used := 0, window_start := now } else l
    let current := l.tokens_used
    if current + est ≤ tpm then (l, now, sleeps, true)
    else
      let wait := 60 - elapsed
      tpm_wait_loop tpm est fuel l (now + wait) (sleeps ++ [wait])

/-- Request admission (rate_limiter.rs, `acquire`): TPM loop first, then one
semaphore permit under RPM. The detached 60-second permit-return timer is
real time and is not modelled; a caller finding no permit is reported as
blocked. -/
def RateLimiter.acquire (l : RateLimiter) (now est fuel : Nat) : AcquireResult :=
  let tpm_phase :=
    match l.tpm_limit with
    | none => (l, now, ([] : List Nat), true)
    | some tpm => tpm_wait_loop tpm est fuel l now []
  match tpm_phase with
  | (l, now, sleeps, tpm_ok) =>
    if tpm_ok then
      match l.rpm_limit with
      | none => { limiter := l, now := now, sleeps := sleeps, completed := true }
      | some _ =>
        if 0 < l.rpm_permits then
          { limiter := { l with rpm_permits := l.rpm_permits - 1 }, now := now,
            sleeps := sleeps, completed := true }
        else
          { limiter := l, now := now, sleeps := sleeps, completed := false }
    else { limiter := l, now := now, sleeps := sleeps, completed := false }

/-- Usage recording (rate_limiter.rs, `record_usage`). -/
def RateLimiter.recordUsage (l : RateLimiter) (actual : Nat) : RateLimiter :=
  { l with tokens_used := l.tokens_used + actual }

-- ─────────────────────────────────────────────────────────
--  Tool dispatch (runner.rs, `execute_tool`)
-- ─────────────────────────────────────────────────────────

/-- Lifecycle hook context (hooks.rs, `HookContext`). -/
structure HookContext where
  agent_id : String
  mission_id : Option String
  skill : String
  deriving DecidableEq, Repr

/-- Observable hook invocation. -/
inductive HookEvent where
  | pre (skill : String)
  | post (skill : String)
  deriving DecidableEq, Repr

/-- Dynamic skill definition (capabilities.rs, `SkillDefinition`); schema,
doc url and tags are omitted. -/
structure SkillDefinition where
  name : String
  description : String
  execution_command : String
  deriving DecidableEq, Repr

/-- Abstract outcome of one tool handler: the new output text, the new
usage, and the handler's direct string result (used only by
`issue_alpha_directive`). -/
structure HandlerOut where
  text : String
  usage : Option TokenUsage
  ret : String
  deriving DecidableEq, Repr

/-- Type of an abstract tool-handler interpretation: the handler bodies
perform network and subprocess I/O and are supplied as an environment. -/
abbrev HandlerFn := RunContext → FunctionCall → String → Option TokenUsage →
  Except String HandlerOut

/-- Result of one `execute_tool` dispatch: the hook invocations performed
and either an error or (early-return, output text, usage). -/
structure ToolCallStep where
  hook_events : List HookEvent
  result : Except String (Option String × String × Option TokenUsage)

/-- The built-in handler names of the `execute_tool` match (runner.rs), in
source order. -/
def builtin_tool_names : List String :=
  ["spawn_subagent", "issue_alpha_directive", "share_finding", "query_financial_logs",
   "archive_to_vault", "notify_discord", "complete_mission", "fetch_url",
   "read_file", "write_file", "list_files", "delete_file", "propose_capability"]

/-- Tool dispatch (runner.rs, `execute_tool`): pre-tool hook, the name match
over the built-in handler table with fallback to the dynamic skill registry
(a name in neither is a silent no-op), then the post-tool hook. A failing
pre-hook or handler aborts before the post-hook; every built-in handler
except `issue_alpha_directive` yields no early return. -/
def execute_tool (hooks : String → HookContext → Except String Unit)
    (handlers : String → HandlerFn)
    (skills_registry : String → Option SkillDefinition)
    (ctx : RunContext) (fc : FunctionCall)
    (output_text : String) (usage : Option TokenUsage) : ToolCallStep :=
  let hook_ctx : HookContext := ⟨ctx.agent_id, some ctx.mission_id, fc.name⟩
  match hooks "pre-tool" hook_ctx with
  | .error e => ⟨[.pre fc.name], .error e⟩
  | .ok _ =>
    let wrap (h : Except String HandlerOut) :
        Except String (Option String × String × Option TokenUsage) :=
      h.map (fun o => (none, o.text, o.usage))
    let branch : Except String (Option String × String × Option TokenUsage) :=
      if fc.name = "spawn_subagent" then wrap (handlers "spawn_subagent" ctx fc output_text usage)
      else if fc.name = "issue_alpha_directive" then
        (handlers "issue_alpha_directive" ctx fc output_text usage).map
          (fun o => (some o.ret, o.text, o.usage))
      else if fc.name = "share_finding" then wrap (handlers "share_finding" ctx fc output_text usage)
      else if fc.name = "query_financial_logs" then
        wrap (handlers "query_financial_logs" ctx fc output_text usage)
      else if fc.name = "archive_to_vault" then
        wrap (handlers "archive_to_vault" ctx fc output_text usage)
      else if fc.name = "notify_discord" then
        wrap (handlers "notify_discord" ctx fc output_text usage)
      else if fc.name = "complete_mission" then
        wrap (handlers "complete_mission" ctx fc output_text usage)
      else if fc.name = "fetch_url" then wrap (handlers "fetch_url" ctx fc output_text usage)
      else if fc.name = "read_file" then wrap (handlers "read_file" ctx fc output_text usage)
      else if fc.name = "write_file" then wrap (handlers "write_file" ctx fc output_text usage)
      else if fc.name = "list_files" then wrap (handlers "list_files" ctx fc output_text usage)
      else if fc.name = "delete_file" then wrap (handlers "delete_file" ctx fc output_text usage)
      else if fc.name = "propose_capability" then
        wrap (handlers "propose_capability" ctx fc output_text usage)
      else
        match skills_registry fc.name with
        | some _ => wrap (handlers fc.name ctx fc output_text usage)
        | none => .ok (none, output_text, usage)
    match branch with
    | .error e => ⟨[.pre fc.name], .error e⟩
    | .ok out =>
      match hooks "post-tool" hook_ctx with
      | .error e => ⟨[.pre fc.name, .post fc.name], .error e⟩
      | .ok _ => ⟨[.pre fc.name, .post fc.name], .ok out⟩

-- ─────────────────────────────────────────────────────────
--  Helper lemmas
-- ─────────────────────────────────────────────────────────

theorem hasSub_nil_pat (l : List Char) : hasSub [] l = true := by
  cases l <;> simp [hasSub, List.isPrefixOf]

theorem hasSub_append_left (pat l1 l2 : List Char) (h : hasSub pat l1 = true) :
    hasSub pat (l1 ++ l2) = true := by
  induction l1 with
  | nil =>
    simp only [hasSub, List.isEmpty_iff] at h
    subst h
    simpa using hasSub_nil_pat l2
  | cons c cs ih =>
    simp only [hasSub, Bool.or_eq_true] at h
    rcases h with hp | hs
    · have hp2 : pat <+: c :: cs := List.isPrefixOf_iff_prefix.mp hp
      have : pat <+: (c :: cs) ++ l2 := hp2.trans (List.prefix_append _ _)
      simp only [List.cons_append, hasSub, Bool.or_eq_true]
      exact Or.inl (List.isPrefixOf_iff_prefix.mpr (by simpa using this))
    · simp only [List.cons_append, hasSub, Bool.or_eq_true]
      exact Or.inr (ih hs)

theorem strContains_append_left (s1 s2 pat : String) (h : strContains s1 pat = true) :
    strContains (s1 ++ s2) pat = true := by
  unfold strContains at h ⊢
  have hd : (s1 ++ s2).toList = s1.toList ++ s2.toList := String.data_append s1 s2
  rw [hd]
  exact hasSub_append_left _ _ _ h

theorem utf8Len_replicate (n : Nat) (c : Char) :
    String.utf8Len (List.replicate n c) = n * c.utf8Size := by
  induction n with
  | zero => simp
  | succ k ih => rw [List.replicate_succ, String.utf8Len_cons, ih]; ring

-- ─────────────────────────────────────────────────────────
--  Concrete sample data for witnesses
-- ─────────────────────────────────────────────────────────

/-- Sample model config used by witnesses. -/
def sampleModelConfig : ModelConfig := ⟨"google", "gemini-1.5-flash", none, none, none, none, none⟩

/-- Sample agent used by witnesses. -/
def sampleAgent : Agent :=
  ⟨"a1", "Test Runner", "tester", "QA", "desc", none, 0, "idle", 10, 0, [], [], ⟨0, 0, 0⟩,
   sampleModelConfig⟩

/-- Sample run context used by witnesses. -/
def sampleCtx : RunContext :=
  ⟨"a1", "Test Runner", "tester", "QA", "desc", sampleModelConfig, [], [], "m1", 0, [],
   "google", "workspaces/executive-core", false⟩

/-- Sample mission used by witnesses. -/
def sampleMission : Mission := ⟨"m1", "a1", "Test Mission...", .active, 1, 0⟩

/-- Sample engine state used by witnesses. -/
def sampleState : EngineState := ⟨[sampleAgent], [], [], [sampleMission], [], [], [], []⟩

/-- Sample filesystem oracle used by witnesses. -/
def sampleFs : FsOracle :=
  ⟨fun r => .ok r, fun c => c, fun _ => false, fun _ => false, fun _ => false,
   fun _ => .error "missing", fun _ _ => .ok (), fun _ => .ok [], fun _ => .ok ()⟩

-- ─────────────────────────────────────────────────────────
--  C6 — finalize_run delivery string
-- ─────────────────────────────────────────────────────────

/-- C6: `finalize_run` returns the accumulated output text trimmed of
leading and trailing whitespace; when the trimmed output is empty it
returns exactly the fallback sentence. -/
theorem finalize_run_delivery_spec (st : EngineState) (ctx : RunContext)
    (output_text : String) (usage : Option TokenUsage) :
    (rustTrim output_text ≠ "" →
      (finalize_run st ctx output_text usage).2 = rustTrim output_text) ∧
    (rustTrim output_text = "" →
      (finalize_run st ctx output_text usage).2 =
        "(Agent completed its actions without a final conversational response.)") := by
  constructor <;> intro h <;> simp [finalize_run, h]

/-- Witness for C6: `finalize_run` on `"  Hello Context!  "` returns
`"Hello Context!"`, and the whitespace-only example returns the fallback. -/
theorem finalize_run_delivery_spec_witness :
    (finalize_run sampleState sampleCtx "  Hello Context!  " none).2 = "Hello Context!" ∧
    (finalize_run sampleState sampleCtx "   \n  \t " none).2 =
      "(Agent completed its actions without a final conversational response.)" := by
  constructor
  · have h := (finalize_run_delivery_spec sampleState sampleCtx "  Hello Context!  " none).1
      (by decide)
    rw [h]; decide
  · exact (finalize_run_delivery_spec sampleState sampleCtx "   \n  \t " none).2 (by decide)

-- ─────────────────────────────────────────────────────────
--  C8 — inactive rate limiter
-- ─────────────────────────────────────────────────────────

/-- C8: `is_active` holds exactly when an RPM or TPM limit is set, and with
both limits absent `acquire` completes immediately: no sleeps, no state
change, for every token estimate (and any fuel). -/
theorem rate_limiter_inactive_spec (rpm tpm : Option Nat) (now0 : Nat) (l : RateLimiter) :
    ((RateLimiter.make rpm tpm now0).isActive = true ↔
      rpm.isSome = true ∨ tpm.isSome = true) ∧
    (l.rpm_limit = none → l.tpm_limit = none →
      ∀ now est fuel, l.acquire now est fuel =
        { limiter := l, now := now, sleeps := [], completed := true }) := by
  constructor
  · simp [RateLimiter.make, RateLimiter.isActive]
  · intro h1 h2 now est fuel
    simp [RateLimiter.acquire, h1, h2]

/-- Witness for C8: the limiter built with no limits is inactive and its
`acquire` is an immediate no-op. -/
theorem rate_limiter_inactive_spec_witness :
    (RateLimiter.make none none 0).isActive = false ∧
    (RateLimiter.make none none 0).acquire 7 512 5 =
      { limiter := RateLimiter.make none none 0, now := 7, sleeps := [], completed := true } := by
  refine ⟨by decide, ?_⟩
  exact (rate_limiter_inactive_spec none none 0 (RateLimiter.make none none 0)).2 rfl rfl 7 512 5

-- ─────────────────────────────────────────────────────────
--  C7 — filesystem sandbox rejects parent-directory components
-- ─────────────────────────────────────────────────────────

theorem build_candidate_parent (req : List PathComponent)
    (h : PathComponent.parentDir ∈ req) : ∀ acc, build_candidate acc req =
      .error "🚫 SECURITY FAULT: Illegal path traversal attempt detected. Access denied." := by
  induction req with
  | nil => cases h
  | cons c rest ih =>
    intro acc
    cases c with
    | normal s =>
      have ht : PathComponent.parentDir ∈ rest := by
        rcases List.mem_cons.mp h with h1 | h1
        · cases h1
        · exact h1
      simpa [build_candidate] using ih ht (acc ++ [s])
    | parentDir => simp [build_candidate]
    | rootDir =>
      have ht : PathComponent.parentDir ∈ rest := by
        rcases List.mem_cons.mp h with h1 | h1
        · cases h1
        · exact h1
      simpa [build_candidate] using ih ht acc
    | curDir =>
      have ht : PathComponent.parentDir ∈ rest := by
        rcases List.mem_cons.mp h with h1 | h1
        · cases h1
        · exact h1
      simpa [build_candidate] using ih ht acc

theorem get_safe_path_parent (fs : FsOracle) (root : List String)
    (req : List PathComponent) (h : PathComponent.parentDir ∈ req) :
    get_safe_path fs root req =
      (.error "🚫 SECURITY FAULT: Illegal path traversal attempt detected. Access denied.", []) := by
  simp [get_safe_path, build_candidate_parent req h root]

/-- C7: every adapter operation on a requested path containing a
parent-directory component fails with a SECURITY FAULT error and performs
no filesystem access at all (empty access trace). -/
theorem filesystem_sandbox_rejects_dotdot (fs : FsOracle) (root : List String)
    (req : List PathComponent) (content : String)
    (h : PathComponent.parentDir ∈ req) :
    (errorContains (read_file fs root req).1 "SECURITY FAULT" = true ∧
      (read_file fs root req).2 = []) ∧
    (errorContains (write_file fs root req content).1 "SECURITY FAULT" = true ∧
      (write_file fs root req content).2 = []) ∧
    (errorContains (list_files fs root req).1 "SECURITY FAULT" = true ∧
      (list_files fs root req).2 = []) ∧
    (errorContains (delete_file fs root req).1 "SECURITY FAULT" = true ∧
      (delete_file fs root req).2 = []) := by
  have hg := get_safe_path_parent fs root req h
  refine ⟨⟨?_, ?_⟩, ⟨?_, ?_⟩, ⟨?_, ?_⟩, ?_, ?_⟩ <;>
    simp [read_file, write_file, list_files, delete_file, hg, errorContains] <;> decide

/-- Witness for C7: the request `../etc/passwd` (components
`[parentDir, etc, passwd]`) is rejected with SECURITY FAULT and no
filesystem access by all four operations. -/
theorem filesystem_sandbox_rejects_dotdot_witness :
    PathComponent.parentDir ∈
      [PathComponent.parentDir, PathComponent.normal "etc", PathComponent.normal "passwd"] ∧
    (errorContains (read_file sampleFs ["workspaces", "executive-core"]
        [PathComponent.parentDir, PathComponent.normal "etc", PathComponent.normal "passwd"]).1
        "SECURITY FAULT" = true ∧
      (read_file sampleFs ["workspaces", "executive-core"]
        [PathComponent.parentDir, PathComponent.normal "etc", PathComponent.normal "passwd"]).2 = []) ∧
    (errorContains (write_file sampleFs ["workspaces", "executive-core"]
        [PathComponent.parentDir, PathComponent.normal "etc", PathComponent.normal "passwd"] "x").1
        "SECURITY FAULT" = true ∧
      (write_file sampleFs ["workspaces", "executive-core"]
        [PathComponent.parentDir, PathComponent.normal "etc", PathComponent.normal "passwd"] "x").2 = []) ∧
    (errorContains (list_files sampleFs ["workspaces", "executive-core"]
        [PathComponent.parentDir, PathComponent.normal "etc", PathComponent.normal "passwd"]).1
        "SECURITY FAULT" = true ∧
      (list_files sampleFs ["workspaces", "executive-core"]
        [PathComponent.parentDir, PathComponent.normal "etc", PathComponent.normal "passwd"]).2 = []) ∧
    (errorContains (delete_file sampleFs ["workspaces", "executive-core"]
        [PathComponent.parentDir, PathComponent.normal "etc", PathComponent.normal "passwd"]).1
        "SECURITY FAULT" = true ∧
      (delete_file sampleFs ["workspaces", "executive-core"]
        [PathComponent.parentDir, PathComponent.normal "etc", PathComponent.normal "passwd"]).2 = []) :=
  ⟨by decide,
   filesystem_sandbox_rejects_dotdot sampleFs ["workspaces", "executive-core"]
     [PathComponent.parentDir, PathComponent.normal "etc", PathComponent.normal "passwd"] "x"
     (by decide)⟩

-- ─────────────────────────────────────────────────────────
--  C10 — unknown tool names are silent no-ops with hooks
-- ─────────────────────────────────────────────────────────

/-- C10: a tool call whose name is neither a built-in handler name nor a
key of the dynamic skill registry succeeds as a silent no-op — no early
return, unchanged output text, unchanged usage — while the pre-tool and
post-tool hooks are still invoked for it. -/
theorem execute_tool_unknown_noop (hooks : String → HookContext → Except String Unit)
    (handlers : String → HandlerFn) (skills_registry : String → Option SkillDefinition)
    (ctx : RunContext) (fc : FunctionCall) (output_text : String) (usage : Option TokenUsage)
    (hname : fc.name ∉ builtin_tool_names)
    (hreg : skills_registry fc.name = none)
    (hpre : hooks "pre-tool" ⟨ctx.agent_id, some ctx.mission_id, fc.name⟩ = .ok ())
    (hpost : hooks "post-tool" ⟨ctx.agent_id, some ctx.mission_id, fc.name⟩ = .ok ()) :
    execute_tool hooks handlers skills_registry ctx fc output_text usage =
      ⟨[.pre fc.name, .post fc.name], .ok (none, output_text, usage)⟩ := by
  simp only [builtin_tool_names, List.mem_cons, List.not_mem_nil, or_false, not_or] at hname
  obtain ⟨h1, h2, h3, h4, h5, h6, h7, h8, h9, h10, h11, h12, h13⟩ := hname
  simp [execute_tool, hpre, hpost, hreg, h1, h2, h3, h4, h5, h6, h7, h8, h9, h10, h11, h12, h13]

/-- Witness for C10: the unknown tool name `mystery_tool` is dispatched as
a silent no-op with both hooks invoked. -/
theorem execute_tool_unknown_noop_witness :
    execute_tool (fun _ _ => .ok ()) (fun _ _ _ _ _ => .error "unused") (fun _ => none)
      sampleCtx ⟨"mystery_tool", ""⟩ "prior output" (some ⟨1, 2, 3⟩) =
      ⟨[.pre "mystery_tool", .post "mystery_tool"], .ok (none, "prior output", some ⟨1, 2, 3⟩)⟩ :=
  execute_tool_unknown_noop (fun _ _ => .ok ()) (fun _ _ _ _ _ => .error "unused") (fun _ => none)
    sampleCtx ⟨"mystery_tool", ""⟩ "prior output" (some ⟨1, 2, 3⟩)
    (by decide) rfl rfl rfl

-- ─────────────────────────────────────────────────────────
--  C2 — oversight decide round trip
-- ─────────────────────────────────────────────────────────

theorem all_ne_filter_entries (l : List OversightEntry) (x : String) :
    (l.filter (fun e => e.id ≠ x)).all (fun e => e.id ≠ x) = true := by
  simp only [List.all_eq_true, decide_eq_true_eq]
  intro e he
  exact of_decide_eq_true (List.mem_filter.mp he).2

theorem all_ne_filter_strings (l : List String) (x : String) :
    (l.filter (fun r => r ≠ x)).all (fun r => r ≠ x) = true := by
  simp only [List.all_eq_true, decide_eq_true_eq]
  intro r hr
  exact of_decide_eq_true (List.mem_filter.mp hr).2

/-- C2: for a pending entry registered by `submit_oversight`, the decision
delivers exactly the boolean `decision == "approved"` to the awaiting
submit call (so approval returns `true`, rejection `false`, and there is no
third outcome); afterwards the entry is gone from both the pending queue
and the resolver map, and the decision record sits at position 0 of the
ledger, which keeps at most 200 entries. -/
theorem oversight_decide_roundtrip (st : EngineState) (entry_id : String)
    (tc : ToolCall) (mission_id : Option String) (decision : String) :
    ((decide_oversight (submit_oversight_register st entry_id tc mission_id).1 entry_id decision).2
        = .ok (some (decision == "approved"))) ∧
    (submit_oversight_result (some (decision == "approved")) = (decision == "approved")) ∧
    ((decide_oversight (submit_oversight_register st entry_id tc mission_id).1 entry_id decision).1.oversight_queue.all
        (fun e => e.id ≠ entry_id) = true) ∧
    ((decide_oversight (submit_oversight_register st entry_id tc mission_id).1 entry_id decision).1.oversight_resolvers.all
        (fun r => r ≠ entry_id) = true) ∧
    ((decide_oversight (submit_oversight_register st entry_id tc mission_id).1 entry_id decision).1.oversight_ledger
        = (⟨entry_id, decision, "user", some { tc with mission_id := mission_id }⟩ ::
            (submit_oversight_register st entry_id tc mission_id).1.oversight_ledger).take 200) ∧
    ((decide_oversight (submit_oversight_register st entry_id tc mission_id).1 entry_id decision).1.oversight_ledger.head?
        = some ⟨entry_id, decision, "user", some { tc with mission_id := mission_id }⟩) ∧
    ((decide_oversight (submit_oversight_register st entry_id tc mission_id).1 entry_id decision).1.oversight_ledger.length
        ≤ 200) := by
  simp only [submit_oversight_register, decide_oversight, submit_oversight_result]
  simp [all_ne_filter_entries, all_ne_filter_strings, List.length_take]

-- ─────────────────────────────────────────────────────────
--  Mission-store lemmas
-- ─────────────────────────────────────────────────────────

theorem find?_update_mission (l : List Mission) (mid : String) (s : MissionStatus)
    (d : Rat) (id : String) :
    (update_mission l mid s d).find? (fun m => m.id = id) =
      (l.find? (fun m => m.id = id)).map
        (fun m => if m.id = mid then { m with status := s, cost_usd := m.cost_usd + d } else m) := by
  induction l with
  | nil => simp [update_mission]
  | cons m rest ih =>
    have hupd : update_mission (m :: rest) mid s d
        = (if m.id = mid then { m with status := s, cost_usd := m.cost_usd + d } else m)
            :: update_mission rest mid s d := by
      simp [update_mission]
    rw [hupd]
    by_cases h2 : m.id = mid
    · rw [if_pos h2]
      by_cases h1 : m.id = id
      · rw [List.find?_cons_of_pos _ (by simp [h1]), List.find?_cons_of_pos _ (by simp [h1])]
        simp [h2]
      · rw [List.find?_cons_of_neg _ (by simp [h1]), List.find?_cons_of_neg _ (by simp [h1])]
        exact ih
    · rw [if_neg h2]
      by_cases h1 : m.id = id
      · rw [List.find?_cons_of_pos _ (by simp [h1]), List.find?_cons_of_pos _ (by simp [h1])]
        simp [h2]
      · rw [List.find?_cons_of_neg _ (by simp [h1]), List.find?_cons_of_neg _ (by simp [h1])]
        exact ih

theorem find?_append_fresh (l : List Mission) (new : Mission) (id : String)
    (hid : new.id = id) (h : l.all (fun m => m.id ≠ id) = true) :
    (l ++ [new]).find? (fun m => m.id = id) = some new := by
  rw [List.find?_append]
  have hnone : l.find? (fun m => m.id = id) = none := by
    rw [List.find?_eq_none]
    intro m hm
    simpa using of_decide_eq_true (List.all_eq_true.mp h m hm)
  simp [hnone, hid]

theorem missionStatus_update (l : List Mission) (mid : String) (s : MissionStatus)
    (d : Rat) (id : String) :
    missionStatus (update_mission l mid s d) id =
      (missionStatus l id).map (fun s0 => if id = mid then s else s0) := by
  unfold missionStatus
  rw [find?_update_mission]
  cases hf : l.find? (fun m => m.id = id) with
  | none => simp
  | some m =>
    have hid : m.id = id := by simpa using List.find?_some hf
    by_cases h : id = mid <;> simp [h, hid]

theorem find?_map_title_update (l : List Mission) (mid : String) (s : MissionStatus)
    (d : Rat) (id : String) :
    ((update_mission l mid s d).find? (fun m => m.id = id)).map (fun m => m.title)
      = (l.find? (fun m => m.id = id)).map (fun m => m.title) := by
  rw [find?_update_mission]
  cases hf : l.find? (fun m => m.id = id) with
  | none => simp
  | some m => by_cases h : m.id = mid <;> simp [h]

theorem calculate_cost_nonneg (model_id : String) (i o : Nat) :
    0 ≤ calculate_cost model_id i o := by
  unfold calculate_cost MODEL_RATES
  split_ifs <;> simp only [Option.getD_some, Option.getD_none] <;> positivity

-- ─────────────────────────────────────────────────────────
--  C5 — mission cost monotonicity
-- ─────────────────────────────────────────────────────────

theorem missionCost_applyOp_mono (missions : List Mission) (op : RunnerMissionOp)
    (id : String) (c : Rat) (h : missionCost missions id = some c) :
    ∃ c2, missionCost (applyMissionOp missions op) id = some c2 ∧ c ≤ c2 := by
  unfold missionCost at h
  obtain ⟨m, hfind, hcost⟩ : ∃ m, missions.find? (fun m => m.id = id) = some m ∧ m.cost_usd = c := by
    cases hf : missions.find? (fun m => m.id = id) with
    | none => rw [hf] at h; cases h
    | some m => rw [hf] at h; exact ⟨m, rfl, Option.some_injective _ h⟩
  cases op with
  | create mid aid title b =>
    refine ⟨c, ?_, le_refl c⟩
    unfold applyMissionOp missionCost
    rw [List.find?_append, hfind]
    simp [hcost]
  | setStatus mid s =>
    unfold applyMissionOp missionCost
    rw [find?_update_mission, hfind]
    by_cases h2 : m.id = mid
    · exact ⟨c + 0, by simp [h2, hcost], by simp⟩
    · exact ⟨c, by simp [h2, hcost], le_refl c⟩
  | finalizeCost mid model i o =>
    unfold applyMissionOp missionCost
    rw [find?_update_mission, hfind]
    by_cases h2 : m.id = mid
    · exact ⟨c + calculate_cost model i o, by simp [h2, hcost],
        le_add_of_nonneg_right (calculate_cost_nonneg model i o)⟩
    · exact ⟨c, by simp [h2, hcost], le_refl c⟩

theorem missionCost_trace_mono (ops : List RunnerMissionOp) (missions : List Mission)
    (id : String) (c : Rat) (h : missionCost missions id = some c) :
    ∃ cf, missionCost (ops.foldl applyMissionOp missions) id = some cf ∧ c ≤ cf := by
  induction ops generalizing missions c with
  | nil => exact ⟨c, h, le_refl c⟩
  | cons op rest ih =>
    obtain ⟨c1, h1, hle1⟩ := missionCost_applyOp_mono missions op id c h
    obtain ⟨cf, hf, hlef⟩ := ih (applyMissionOp missions op) c1 h1
    exact ⟨cf, hf, le_trans hle1 hlef⟩

/-- C5: the cost of a mission starts at 0 when `create_mission` inserts it,
and along every sequence of mission-store operations the runner performs
(each `update_mission` call site adds either 0 or a non-negative computed
cost) the stored `cost_usd` is monotonically non-decreasing. -/
theorem mission_cost_monotone (ops : List RunnerMissionOp) (missions : List Mission)
    (mission_id agent_id title : String) (budget c : Rat) :
    (missionCost missions mission_id = none →
      missionCost (applyMissionOp missions (.create mission_id agent_id title budget)) mission_id
        = some 0) ∧
    (missionCost missions mission_id = some c →
      ∃ cf, missionCost (ops.foldl applyMissionOp missions) mission_id = some cf ∧ c ≤ cf) := by
  constructor
  · intro h0
    unfold applyMissionOp missionCost
    unfold missionCost at h0
    have hnone : missions.find? (fun m => m.id = mission_id) = none := by
      cases hf : missions.find? (fun m => m.id = mission_id) with
      | none => rfl
      | some m => rw [hf] at h0; cases h0
    rw [List.find?_append, hnone]
    simp
  · exact missionCost_trace_mono ops missions mission_id c

/-- Witness for C5: a freshly created mission has cost 0, and a sample
operation sequence (activate, then finalize with a computed cost) never
shrinks it. -/
theorem mission_cost_monotone_witness :
    (missionCost ([] : List Mission) "m1" = none →
      missionCost (applyMissionOp [] (.create "m1" "a1" "t..." 1)) "m1" = some 0) ∧
    (∃ cf, missionCost
        ([RunnerMissionOp.setStatus "m1" .active,
          RunnerMissionOp.finalizeCost "m1" "gpt-4o" 1000 1000].foldl applyMissionOp
          [sampleMission]) "m1" = some cf ∧ (0 : Rat) ≤ cf) :=
  ⟨(mission_cost_monotone [] [] "m1" "a1" "t..." 1 0).1,
   (mission_cost_monotone
      [RunnerMissionOp.setStatus "m1" .active,
       RunnerMissionOp.finalizeCost "m1" "gpt-4o" 1000 1000]
      [sampleMission] "m1" "a1" "t..." 1 0).2 rfl⟩

-- ─────────────────────────────────────────────────────────
--  C1 — input validation (corrected)
-- ─────────────────────────────────────────────────────────

/-- C1 (amended): `validate_input` succeeds iff the message byte length is
at most 32768, the agent id does not occur in the lineage, and the depth is
strictly below 5 (hence length 32768 / depth 4 pass those checks and 32769
/ depth 5 fail); when the length check passes and the agent id occurs in
the lineage, the error mentions CIRCULAR RECURSION. An oversized message
takes precedence over the circularity check. -/
theorem validate_input_spec (agent_id : String) (payload : TaskPayload) :
    (exceptOk (validate_input agent_id payload) = true ↔
      (payload.message.utf8ByteSize ≤ MAX_TASK_LENGTH ∧
       agent_id ∉ payload.swarm_lineage.getD [] ∧
       payload.swarm_depth.getD 0 < MAX_SWARM_DEPTH)) ∧
    (payload.message.utf8ByteSize ≤ MAX_TASK_LENGTH →
      agent_id ∈ payload.swarm_lineage.getD [] →
      errorContains (validate_input agent_id payload) "CIRCULAR RECURSION" = true) := by
  constructor
  · unfold validate_input exceptOk
    by_cases hA : payload.message.utf8ByteSize > MAX_TASK_LENGTH
    · rw [if_pos hA]
      simp only [Bool.false_eq_true, false_iff, not_and]
      intro h1
      omega
    · rw [if_neg hA]
      by_cases hB : (payload.swarm_lineage.getD []).any (fun id => id = agent_id) = true
      · rw [if_pos hB]
        simp only [List.any_eq_true, decide_eq_true_eq] at hB
        obtain ⟨x, hx, hxeq⟩ := hB
        subst hxeq
        simp only [Bool.false_eq_true, false_iff, not_and]
        intro _ hmem
        exact absurd hx hmem
      · rw [if_neg hB]
        by_cases hC : payload.swarm_depth.getD 0 ≥ MAX_SWARM_DEPTH
        · rw [if_pos hC]
          simp only [Bool.false_eq_true, false_iff, not_and]
          intro _ _
          omega
        · rw [if_neg hC]
          simp only [eq_self_iff_true, true_iff]
          refine ⟨by omega, ?_, by omega⟩
          intro hmem
          exact hB (List.any_eq_true.mpr ⟨agent_id, hmem, by simp⟩)
  · intro hlen hmem
    unfold validate_input
    rw [if_neg (by omega)]
    rw [if_pos (List.any_eq_true.mpr ⟨agent_id, hmem, by simp⟩)]
    simp only [errorContains]
    exact strContains_append_left "🐝 CIRCULAR RECURSION DETECTED: Agent \x27" _ _ (by decide)

/-- Witness for C1: a small payload with a circular lineage is rejected
with CIRCULAR RECURSION in the error. -/
theorem validate_input_spec_witness :
    errorContains
      (validate_input "a"
        ⟨"hi", none, none, none, none, none, none, none, none, none, some 1, some ["a"], none, none⟩)
      "CIRCULAR RECURSION" = true :=
  (validate_input_spec "a"
      ⟨"hi", none, none, none, none, none, none, none, none, none, some 1, some ["a"], none, none⟩).2
    (by decide) (by decide)

/-- Counterexample payload for C1: a 32769-byte message together with a
circular lineage. -/
def c1Payload : TaskPayload :=
  ⟨String.mk (List.replicate 32769 'a'), none, none, none, none, none, none, none, none, none,
   some 2, some ["agent-1", "agent-2"], none, none⟩

/-- Counterexample for C1 as frozen: the agent id occurs in the lineage,
yet the validation error does not mention CIRCULAR RECURSION (the
oversized-message error is reported instead), refuting the unconditional
claim that a circular lineage always yields a CIRCULAR RECURSION error. -/
theorem validate_input_circular_counterexample :
    "agent-1" ∈ c1Payload.swarm_lineage.getD [] ∧
    exceptOk (validate_input "agent-1" c1Payload) = false ∧
    errorContains (validate_input "agent-1" c1Payload) "CIRCULAR RECURSION" = false := by
  have hsize : c1Payload.message.utf8ByteSize = 32769 := by
    show (String.mk (List.replicate 32769 'a')).utf8ByteSize = 32769
    rw [String.utf8ByteSize_mk, utf8Len_replicate]
    decide
  refine ⟨by decide, ?_, ?_⟩
  · unfold validate_input
    rw [if_pos (by rw [hsize]; decide)]
    rfl
  · unfold validate_input
    rw [if_pos (by rw [hsize]; decide)]
    unfold errorContains
    rw [hsize]
    decide

-- ─────────────────────────────────────────────────────────
--  C4 — complete_mission oversight (corrected)
-- ─────────────────────────────────────────────────────────

/-- C4 (amended): an approved `complete_mission` transitions the mission to
completed; a rejected one leaves the mission store untouched by the handler
(an active mission is still active at that point). The run's subsequent
normal finalization, however, itself marks the mission completed, so a
rejection does not keep the mission in status active for the remainder of
the run. -/
theorem complete_mission_oversight_spec (missions : List Mission) (st : EngineState)
    (ctx : RunContext) (report output_text : String) (usage : Option TokenUsage) :
    (missionStatus (handle_complete_mission missions ctx report true output_text).1 ctx.mission_id
      = (missionStatus missions ctx.mission_id).map (fun _ => .completed)) ∧
    ((handle_complete_mission missions ctx report false output_text).1 = missions) ∧
    (missionStatus (finalize_run st ctx output_text usage).1.missions ctx.mission_id
      = (missionStatus st.missions ctx.mission_id).map (fun _ => .completed)) := by
  refine ⟨?_, by simp [handle_complete_mission], ?_⟩
  · simp only [handle_complete_mission, if_true]
    rw [missionStatus_update]
    cases missionStatus missions ctx.mission_id <;> simp
  · simp only [finalize_run]
    rw [missionStatus_update]
    cases missionStatus st.missions ctx.mission_id <;> simp

/-- Counterexample for C4 as frozen: after a rejected `complete_mission`
the handler leaves the mission active, but when the run then finishes
normally, `finalize_run` marks it completed — the mission does not remain
in status active for the remainder of the run. -/
theorem complete_mission_rejected_counterexample :
    missionStatus (handle_complete_mission sampleState.missions sampleCtx "r" false "out").1 "m1"
      = some .active ∧
    missionStatus
      (finalize_run
        { sampleState with missions :=
            (handle_complete_mission sampleState.missions sampleCtx "r" false "out").1 }
        sampleCtx "out" none).1.missions "m1" = some .completed ∧
    some MissionStatus.completed ≠ some MissionStatus.active := by
  refine ⟨by decide, ?_, by decide⟩
  have h1 : (handle_complete_mission sampleState.missions sampleCtx "r" false "out").1
      = sampleState.missions := by decide
  rw [h1]
  have h2 := missionStatus_update sampleState.missions "m1" .completed
    (calculate_cost "gemini-1.5-flash" 0 0) "m1"
  simp only [finalize_run, sampleCtx, sampleModelConfig, Option.map_none', Option.getD_none] at *
  rw [h2]
  decide

-- ─────────────────────────────────────────────────────────
--  C9 — mission title (corrected)
-- ─────────────────────────────────────────────────────────

theorem check_budget_title (missions : List Mission) (logs : List MissionLog)
    (ctx : RunContext) (d : Rat) (txt : String) (id : String) :
    ((check_budget missions logs ctx d txt).missions.find? (fun m => m.id = id)).map
        (fun m => m.title)
      = (missions.find? (fun m => m.id = id)).map (fun m => m.title) := by
  unfold check_budget
  split
  · split
    · simp [find?_map_title_update]
    · simp
  · simp

/-- Title of the mission a run creates: it is always the first-50-chars
title derived from the user message, whatever the provider and tool
outcomes are. -/
theorem run_mission_title (st : EngineState) (agent_id : String) (payload : TaskPayload)
    (mission_id : String) (provider : ProviderOutcome) (tool_outcomes : List ToolOutcome)
    (hval : validate_input agent_id payload = .ok ())
    (hagent : st.agents.any (fun a => a.id = agent_id) = true)
    (hfresh : st.missions.all (fun m => m.id ≠ mission_id) = true) :
    ((run st agent_id payload mission_id provider tool_outcomes).1.missions.find?
        (fun m => m.id = mission_id)).map (fun m => m.title)
      = some (mission_title_of payload.message) := by
  have hbase : ∀ bud : Rat,
      ((st.missions ++
          [(⟨mission_id, agent_id, mission_title_of payload.message, .pending, bud, 0⟩ : Mission)]).find?
          (fun m => m.id = mission_id)).map (fun m => m.title)
        = some (mission_title_of payload.message) := by
    intro bud
    rw [find?_append_fresh st.missions
        ⟨mission_id, agent_id, mission_title_of payload.message, .pending, bud, 0⟩
        mission_id rfl hfresh]
    rfl
  unfold run create_mission
  simp only [hval, hagent, eq_self_iff_true, if_true]
  split
  · simp only [find?_map_title_update]
    exact hbase _
  · split
    · simp only [find?_map_title_update]
      exact hbase _
    · split
      · simp only [check_budget_title, find?_map_title_update]
        exact hbase _
      · split
        · simp only [check_budget_title, find?_map_title_update]
          exact hbase _
        · simp only [check_budget_title, find?_map_title_update]
          exact hbase _
        · simp only [finalize_run, check_budget_title, find?_map_title_update]
          exact hbase _

/-- C9 (amended): the mission created for a run has a title equal to the
first at-most-50 characters of the user message followed by the literal
ellipsis "...", hence at most 53 characters long; only the part before the
ellipsis is a prefix of the message. -/
theorem run_mission_title_spec (st : EngineState) (agent_id : String) (payload : TaskPayload)
    (mission_id : String) (provider : ProviderOutcome) (tool_outcomes : List ToolOutcome)
    (hval : validate_input agent_id payload = .ok ())
    (hagent : st.agents.any (fun a => a.id = agent_id) = true)
    (hfresh : st.missions.all (fun m => m.id ≠ mission_id) = true) :
    ((run st agent_id payload mission_id provider tool_outcomes).1.missions.find?
        (fun m => m.id = mission_id)).map (fun m => m.title)
      = some (mission_title_of payload.message) ∧
    (mission_title_of payload.message).toList
      = payload.message.toList.take 50 ++ ("...").toList ∧
    (mission_title_of payload.message).length ≤ 53 ∧
    strStarts payload.message (String.mk (payload.message.toList.take 50)) = true := by
  refine ⟨run_mission_title st agent_id payload mission_id provider tool_outcomes
    hval hagent hfresh, ?_, ?_, ?_⟩
  · show (String.mk (payload.message.toList.take 50) ++ "...").data = _
    rw [String.data_append]
    rfl
  · show (String.mk (payload.message.toList.take 50) ++ "...").data.length ≤ 53
    rw [String.data_append]
    simp only [List.length_append, List.length_take]
    have h3 : ("..." : String).data.length = 3 := rfl
    rw [h3]
    have hm : 50 ⊓ payload.message.toList.length ≤ 50 := min_le_left _ _
    exact le_trans (Nat.add_le_add_right hm 3) (by norm_num)
  · unfold strStarts
    exact List.isPrefixOf_iff_prefix.mpr (by simpa using List.take_prefix 50 payload.message.toList)

/-- Payload used by the C9 witness and counterexample. -/
def c9Payload : TaskPayload :=
  ⟨"Hi", none, none, none, none, none, none, none, none, none, none, none, none, none⟩

/-- Witness for C9 (amended): a concrete run creating mission `m9` from the
message `"Hi"`. -/
theorem run_mission_title_spec_witness :
    ((run sampleState "a1" c9Payload "m9" (.ok "done" [] none) []).1.missions.find?
        (fun m => m.id = "m9")).map (fun m => m.title)
      = some (mission_title_of c9Payload.message) ∧
    (mission_title_of c9Payload.message).toList
      = c9Payload.message.toList.take 50 ++ ("...").toList ∧
    (mission_title_of c9Payload.message).length ≤ 53 ∧
    strStarts c9Payload.message (String.mk (c9Payload.message.toList.take 50)) = true :=
  run_mission_title_spec sampleState "a1" c9Payload "m9" (.ok "done" [] none) []
    rfl (by decide) (by decide)

/-- Counterexample for C9 as frozen: the run on message `"Hi"` creates a
mission titled `"Hi..."`, which is not a prefix of the user message (it
appends an ellipsis the message does not contain). -/
theorem mission_title_not_prefix_counterexample :
    ((run sampleState "a1" c9Payload "m9" (.ok "done" [] none) []).1.missions.find?
        (fun m => m.id = "m9")).map (fun m => m.title) = some "Hi..." ∧
    strStarts "Hi" "Hi..." = false := by
  constructor
  · rw [run_mission_title sampleState "a1" c9Payload "m9" (.ok "done" [] none) []
      rfl (by decide) (by decide)]
    decide
  · decide

-- ─────────────────────────────────────────────────────────
--  C3 — budget gate pauses the mission
-- ─────────────────────────────────────────────────────────

theorem strStarts_append_of (s1 s2 pat : String) (h : strStarts s1 pat = true) :
    strStarts (s1 ++ s2) pat = true := by
  unfold strStarts at h ⊢
  have hd : (s1 ++ s2).toList = s1.toList ++ s2.toList := String.data_append s1 s2
  rw [hd]
  exact List.isPrefixOf_iff_prefix.mpr
    ((List.isPrefixOf_iff_prefix.mp h).trans (List.prefix_append _ _))

theorem check_budget_triggered (missions : List Mission) (logs : List MissionLog)
    (ctx : RunContext) (d : Rat) (txt : String) (mission : Mission)
    (hm : get_mission_by_id missions ctx.mission_id = some mission)
    (hcond : mission.budget_usd ≤ mission.cost_usd) :
    check_budget missions logs ctx d txt =
      { missions := update_mission missions ctx.mission_id .paused 0,
        logs := log_step logs ctx.mission_id ctx.agent_id "Finance Analyst"
          "Emergency Pause: Neural cost has exceeded allocated budget." "warning",
        early := some ("(PAUSED: Budget Exceeded) " ++ txt) } := by
  unfold check_budget
  rw [hm]
  simp only []
  rw [if_pos hcond]

theorem resolve_agent_context_state_slice (st : EngineState) (ms : List Mission)
    (ls : List MissionLog) (a : String) (p : TaskPayload) (mid : String) (d : Nat)
    (lin : List String) :
    resolve_agent_context { st with missions := ms, logs := ls } a p mid d lin
      = resolve_agent_context st a p mid d lin := rfl

theorem resolve_agent_context_ids (st : EngineState) (a : String) (p : TaskPayload)
    (mid : String) (d : Nat) (lin : List String) (ctx : RunContext)
    (h : resolve_agent_context st a p mid d lin = .ok ctx) :
    ctx.agent_id = a ∧ ctx.mission_id = mid := by
  unfold resolve_agent_context at h
  repeat' (first | split at h | simp only [] at h)
  all_goals cases h
  all_goals exact ⟨rfl, rfl⟩

/-- C3: after a successful primary generation, the step cost is computed by
`calculate_cost` from the rate table (two §6 sample entries are pinned
below), and when the stored mission cost has reached the budget the mission
is transitioned to paused, a warning step sourced "Finance Analyst" is
logged last, and the run returns — as a success, not an error — the output
prefixed by "(PAUSED: Budget Exceeded)". -/
theorem budget_pause_on_run (st : EngineState) (agent_id : String) (payload : TaskPayload)
    (mission_id text : String) (calls : List FunctionCall) (usage : Option TokenUsage)
    (tool_outcomes : List ToolOutcome) (ctx : RunContext) (b : Rat)
    (hval : validate_input agent_id payload = .ok ())
    (hagent : st.agents.any (fun a => a.id = agent_id) = true)
    (hfresh : st.missions.all (fun m => m.id ≠ mission_id) = true)
    (hres : resolve_agent_context st agent_id payload mission_id
      (payload.swarm_depth.getD 0) (payload.swarm_lineage.getD []) = .ok ctx)
    (hbud : payload.budget_usd = some b)
    (hb0 : b ≤ 0) :
    (run st agent_id payload mission_id (.ok text calls usage) tool_outcomes).2
      = .ok ("(PAUSED: Budget Exceeded) " ++ text) ∧
    strStarts ("(PAUSED: Budget Exceeded) " ++ text) "(PAUSED: Budget Exceeded)" = true ∧
    missionStatus
      (run st agent_id payload mission_id (.ok text calls usage) tool_outcomes).1.missions
      mission_id = some .paused ∧
    (run st agent_id payload mission_id (.ok text calls usage) tool_outcomes).1.logs.getLast?
      = some ⟨mission_id, agent_id, "Finance Analyst",
          "Emergency Pause: Neural cost has exceeded allocated budget.", "warning"⟩ ∧
    calculate_cost "gemini-1.5-flash" 10000 10000 = 0.00375 ∧
    calculate_cost "zzz" 1000 1000 = 0.008 := by
  obtain ⟨hca, hcm⟩ := resolve_agent_context_ids _ _ _ _ _ _ _ hres
  have hnew : ∀ s0 d0,
      (update_mission
          (st.missions ++ [(⟨mission_id, agent_id, mission_title_of payload.message,
            .pending, b, 0⟩ : Mission)]) mission_id s0 d0).find? (fun m => m.id = mission_id)
        = some ⟨mission_id, agent_id, mission_title_of payload.message, s0, b, 0 + d0⟩ := by
    intro s0 d0
    rw [find?_update_mission,
      find?_append_fresh st.missions
        ⟨mission_id, agent_id, mission_title_of payload.message, .pending, b, 0⟩
        mission_id rfl hfresh]
    simp
  have hgate : get_mission_by_id
      (update_mission
        (st.missions ++ [(⟨mission_id, agent_id, mission_title_of payload.message,
          .pending, b, 0⟩ : Mission)]) mission_id .active 0) mission_id
      = some ⟨mission_id, agent_id, mission_title_of payload.message, .active, b, 0 + 0⟩ := by
    unfold get_mission_by_id
    exact hnew .active 0
  unfold run create_mission
  simp only [hval, hagent, eq_self_iff_true, if_true, hbud, Option.getD_some,
    resolve_agent_context_state_slice, hres]
  rw [check_budget_triggered _ _ _ _ _ _ (by rw [hcm]; exact hgate) (by simpa using hb0)]
  refine ⟨rfl, strStarts_append_of _ _ _ (by decide), ?_, ?_, ?_, ?_⟩
  · show missionStatus (update_mission _ ctx.mission_id .paused 0) mission_id = some .paused
    rw [hcm, missionStatus_update]
    unfold missionStatus
    rw [hnew .active 0]
    simp
  · show (log_step _ ctx.mission_id ctx.agent_id "Finance Analyst"
        "Emergency Pause: Neural cost has exceeded allocated budget." "warning").getLast? = _
    rw [hcm, hca]
    unfold log_step
    rw [List.getLast?_concat]
  · have hr : MODEL_RATES "gemini-1.5-flash" = some ⟨0.000075, 0.0003⟩ := rfl
    unfold calculate_cost
    rw [hr]
    simp only [Option.getD_some]
    norm_num
  · have hr : MODEL_RATES "zzz" = none := rfl
    unfold calculate_cost
    rw [hr]
    simp only [Option.getD_none]
    norm_num

/-- Payload used by the C3 witness: explicit zero budget. -/
def c3Payload : TaskPayload :=
  ⟨"hello", none, none, none, none, none, none, none, none, some 0, none, none, none, none⟩

/-- Run context resolved for the C3 witness. -/
def c3Ctx : RunContext :=
  ⟨"a1", "Test Runner", "tester", "QA", "desc", sampleModelConfig, [], [], "mb", 0, [],
   "google", "workspaces/executive-core", false⟩

/-- Witness for C3: a concrete run with budget 0 is paused with the budget
marker returned as a success. -/
theorem budget_pause_on_run_witness :
    (run sampleState "a1" c3Payload "mb" (.ok "thinking" [] none) []).2
      = .ok ("(PAUSED: Budget Exceeded) " ++ "thinking") ∧
    strStarts ("(PAUSED: Budget Exceeded) " ++ "thinking") "(PAUSED: Budget Exceeded)" = true ∧
    missionStatus (run sampleState "a1" c3Payload "mb" (.ok "thinking" [] none) []).1.missions
      "mb" = some .paused ∧
    (run sampleState "a1" c3Payload "mb" (.ok "thinking" [] none) []).1.logs.getLast?
      = some ⟨"mb", "a1", "Finance Analyst",
          "Emergency Pause: Neural cost has exceeded allocated budget.", "warning"⟩ ∧
    calculate_cost "gemini-1.5-flash" 10000 10000 = 0.00375 ∧
    calculate_cost "zzz" 1000 1000 = 0.008 :=
  budget_pause_on_run sampleState "a1" c3Payload "mb" "thinking" [] none [] c3Ctx 0
    rfl (by decide) (by decide) rfl rfl (le_refl 0)

end TadPole
